import Mathlib

/-!
Shallow embedding of the FPL MCP server core (tools/fpl_tools.py) and
verification of the frozen claims about its specification.

Python dictionaries built from comprehensions are modelled as association
lists where a later binding for the same key overrides an earlier one
(`pyDictGet` searches the reversed list).  Python `sorted` is a stable
merge sort, modelled by `List.mergeSort` with the comparison induced by
the key function (`reverse=True` flips the key comparison).  Fallible
operations (KeyError on `d[k]`, ZeroDivisionError, `max` of an empty
sequence) return `Option`; network fetches are passed in as oracles, and
code paths that perform fetches inside loops live in `Except String` so
that a fetch failure is observable as an error value.
-/

set_option linter.unusedVariables false

/-- Python dict lookup `d.get(k)` for a dict built from the key-value list
`l` in order, where a later binding for a key overrides an earlier one. -/
def pyDictGet [DecidableEq κ] (l : List (κ × β)) (k : κ) : Option β :=
  (l.reverse.find? (fun kv => decide (kv.1 = k))).map (fun kv => kv.2)

/-- Python true division, raising (None) on a zero divisor. -/
def pyDiv (a b : ℚ) : Option ℚ :=
  if b = 0 then none else some (a / b)

/-- Round-half-to-even to an integer, the rounding used by Python round. -/
def roundHalfEven (q : ℚ) : ℤ :=
  let f : ℤ := ⌊q⌋
  let r : ℚ := q - (f : ℚ)
  if r < 1/2 then f
  else if (1:ℚ)/2 < r then f + 1
  else if f % 2 = 0 then f else f + 1

/-- Python round(q, n): round half to even at n decimal places. -/
def roundTo (n : Nat) (q : ℚ) : ℚ :=
  ((roundHalfEven (q * (10:ℚ)^n) : ℤ) : ℚ) / (10:ℚ)^n

/-- Monadic map over Option: the whole computation fails as soon as one
element fails (models a Python loop whose body may raise). -/
def mapO (f : α → Option β) : List α → Option (List β)
  | [] => some []
  | x :: xs => do
    let y ← f x
    let ys ← mapO f xs
    pure (y :: ys)

/-- Filter whose predicate may fail, in Option (models a Python list
comprehension whose condition may raise). -/
def filterO (p : α → Option Bool) : List α → Option (List α)
  | [] => some []
  | x :: xs => do
    let b ← p x
    let rest ← filterO p xs
    pure (if b then x :: rest else rest)

/-- Lift an Option into Except with a fixed error message (a raised
KeyError/ZeroDivisionError propagating out of an Except computation). -/
def liftOpt (o : Option α) : Except String α :=
  match o with
  | some a => Except.ok a
  | none => Except.error "KeyError"

/-- Monadic map in Except: fails at the first failing element. -/
def mapE (f : α → Except String β) : List α → Except String (List β)
  | [] => Except.ok []
  | x :: xs => do
    let y ← f x
    let ys ← mapE f xs
    pure (y :: ys)

/-- Monadic left fold in Except: a Python for-loop over `l` whose body may
raise; the first raise aborts the loop and the computation. -/
def foldE (f : β → α → Except String β) (acc : β) : List α → Except String β
  | [] => Except.ok acc
  | x :: xs => do
    let acc' ← f acc x
    foldE f acc' xs

/-- Python dict counter update `d[k] = d.get(k, 0) + 1`: an existing key
keeps its position (insertion order), a new key is appended. -/
def bumpKey [DecidableEq κ] (acc : List (κ × Nat)) (k : κ) : List (κ × Nat) :=
  if acc.any (fun kv => decide (kv.1 = k)) then
    acc.map (fun kv => if kv.1 = k then (kv.1, kv.2 + 1) else kv)
  else acc ++ [(k, 1)]

/-- Python max(l, key=f): raises on an empty sequence, otherwise returns
the first element attaining the maximum key (later elements replace the
current best only when strictly greater). -/
def pyMaxBy (key : α → ℤ) : List α → Option α
  | [] => none
  | x :: xs => some (xs.foldl (fun best y => if key best < key y then y else best) x)

/-! ## Data model (shapes consumed from the upstream payloads) -/

/-- A bootstrap element (player record), with the fields the core uses. -/
structure Player where
  id : Nat
  first_name : String
  second_name : String
  team : Nat
  element_type : Nat
  now_cost : Nat
  total_points : ℤ
  minutes : Nat
  deriving Repr, DecidableEq

/-- A bootstrap team record. -/
structure Team where
  id : Nat
  name : String
  strength : Nat
  deriving Repr, DecidableEq

/-- A bootstrap element type (position) record. -/
structure ElementType where
  id : Nat
  singular_name_short : String
  deriving Repr, DecidableEq

/-- The bootstrap snapshot (Reference Catalog). -/
structure Bootstrap where
  elements : List Player
  teams : List Team
  element_types : List ElementType
  deriving Repr, DecidableEq

/-- One raw pick from entry/{id}/event/{gw}/picks/. -/
structure Pick where
  element : Nat
  multiplier : ℤ
  is_captain : Bool
  is_vice_captain : Bool
  deriving Repr, DecidableEq

/-- Live stats for one player in event/{gw}/live/. -/
structure LiveStats where
  total_points : ℤ
  deriving Repr, DecidableEq

/-- One element of the live-scores payload. -/
structure LiveElem where
  id : Nat
  stats : LiveStats
  deriving Repr, DecidableEq

/-- One chip activation from a manager history payload. -/
structure Chip where
  chip : String
  event : Nat
  deriving Repr, DecidableEq

/-! ## Lookup maps (Reference Catalog) -/

/-- Full display name of a player, as built by the f-strings in the code. -/
def fullName (p : Player) : String :=
  p.first_name ++ " " ++ p.second_name

/-- _player_map(): dict from player id to player record. -/
def playerMap (snap : Bootstrap) : Nat → Option Player :=
  pyDictGet (snap.elements.map (fun p => (p.id, p)))

/-- _team_map(): dict from team id to team name. -/
def teamMap (snap : Bootstrap) : Nat → Option String :=
  pyDictGet (snap.teams.map (fun t => (t.id, t.name)))

/-- _pos_map(): dict from element type id to short position code. -/
def posMap (snap : Bootstrap) : Nat → Option String :=
  pyDictGet (snap.element_types.map (fun e => (e.id, e.singular_name_short)))

/-- _player_map_inv: dict from full display name to player id, built once
from the bootstrap snapshot; a later player with the same full name
overrides an earlier one. -/
def playerMapInv (snap : Bootstrap) : String → Option Nat :=
  pyDictGet (snap.elements.map (fun p => (fullName p, p.id)))

/-! ## Enrichment -/

/-- An enriched display player as produced by _enrich_player. -/
structure DisplayPlayer where
  id : Nat
  name : String
  team : String
  position : String
  price : ℚ
  deriving Repr, DecidableEq

/-- _enrich_player(pid): joins the player, team and position maps; every
lookup is a Python `d[k]` access, so an absent id raises (None). -/
def enrich_player (snap : Bootstrap) (pid : Nat) : Option DisplayPlayer := do
  let p ← playerMap snap pid
  let tname ← teamMap snap p.team
  let pos ← posMap snap p.element_type
  pure { id := pid, name := fullName p, team := tname, position := pos,
         price := (p.now_cost : ℚ) / 10 }

/-- resolve_player_picks(picks): enriches each pick and attaches the
multiplier and captaincy flags; an unknown player id raises. -/
structure SquadEntry extends DisplayPlayer where
  multiplier : ℤ
  is_captain : Bool
  is_vice_captain : Bool
  deriving Repr, DecidableEq

/-- resolve_player_picks, one pick. -/
def resolveOnePick (snap : Bootstrap) (pk : Pick) : Option SquadEntry :=
  (enrich_player snap pk.element).map (fun d =>
    { toDisplayPlayer := d, multiplier := pk.multiplier,
      is_captain := pk.is_captain, is_vice_captain := pk.is_vice_captain })

/-- resolve_player_picks(picks). -/
def resolve_player_picks (snap : Bootstrap) (picks : List Pick) :
    Option (List SquadEntry) :=
  mapO (resolveOnePick snap) picks

/-! ## Basic player rankings -/

/-- get_top_players(limit): all elements sorted descending by total
points (Python sorted with reverse=True is a stable merge sort on the
flipped comparison), truncated to limit. -/
def get_top_players (snap : Bootstrap) (limit : Nat) : List Player :=
  (snap.elements.mergeSort (fun a b => decide (b.total_points ≤ a.total_points))).take limit

/-- Python str.upper() on the ASCII position codes, character by
character. -/
def pyUpper (s : String) : String := ⟨s.data.map Char.toUpper⟩

/-- get_top_players_by_position(position, limit): looks the upper-cased
code up in the code-to-id dict; a missing (or falsy, so also id 0) result
returns the empty list; otherwise the elements of that position sorted
descending by total points, truncated to limit. -/
def get_top_players_by_position (snap : Bootstrap) (position : String) (limit : Nat) :
    List Player :=
  match pyDictGet (snap.element_types.map (fun e => (e.singular_name_short, e.id)))
      (pyUpper position) with
  | none => []
  | some pid =>
    if pid = 0 then []
    else
      ((snap.elements.filter (fun p => decide (p.element_type = pid))).mergeSort
        (fun a b => decide (b.total_points ≤ a.total_points))).take limit

/-! ## Fixture difficulty -/

/-- The fdr_map dict literal in get_fdr. -/
def fdr_map : Nat → Option String :=
  pyDictGet [(1, "EASY"), (2, "EASY"), (3, "MED"), (4, "HARD"), (5, "HARD")]

/-- The bucket expression (strength // 100) or 1 in get_fdr: Python `or`
replaces a falsy (zero) left operand by 1. -/
def fdrBucket (strength : Nat) : Nat :=
  if strength / 100 = 0 then 1 else strength / 100

/-- One fixture rating in get_fdr: the fdr_map subscript raises when the
bucket is outside the dict (None here). -/
def fdrRating (strength : Nat) : Option String :=
  fdr_map (fdrBucket strength)

/-! ## Manager picks enrichment -/

/-- The entry_history sub-dict of a raw picks payload; every field is read
with .get in the code, so each is optional. -/
structure EntryHistoryRaw where
  event : Option Nat
  points : Option ℤ
  total_points : Option ℤ
  overall_rank : Option ℤ
  value : Option ℤ
  bank : Option ℤ
  event_transfers : Option ℤ
  event_transfers_cost : Option ℤ
  points_on_bench : Option ℤ
  deriving Repr, DecidableEq

/-- A raw picks payload (entry/{id}/event/{gw}/picks/). -/
structure PicksRaw where
  entry_history : Option EntryHistoryRaw
  picks : List Pick
  active_chip : Option String
  deriving Repr, DecidableEq

/-- One resolved squad row of enrich_manager_picks: every reference is
read with .get, so a missing player yields the name "None None" (Python
str(None) inside the f-string) and null team and position. -/
structure ResolvedPick where
  name : String
  team : Option String
  position : Option String
  price : ℚ
  multiplier : ℤ
  is_captain : Bool
  is_vice_captain : Bool
  points : ℤ
  deriving Repr, DecidableEq

/-- The output record of enrich_manager_picks. -/
structure ManagerPicksOut where
  gameweek : Option Nat
  points : Option ℤ
  total_points : Option ℤ
  overall_rank : Option ℤ
  team_value : ℚ
  bank : ℚ
  transfers : Option ℤ
  transfer_cost : Option ℤ
  bench_points : Option ℤ
  chip_used : Option String
  squad : List ResolvedPick
  deriving Repr, DecidableEq

/-- Rendering of an optional string through a Python f-string: None
prints as "None". -/
def pyStr (o : Option String) : String :=
  match o with
  | some s => s
  | none => "None"

/-- The per-pick body of the loop in enrich_manager_picks. -/
def resolvePickLoose (snap : Bootstrap) (live : List LiveElem) (pk : Pick) :
    ResolvedPick :=
  let liveData : Nat → Option LiveElem := pyDictGet (live.map (fun e => (e.id, e)))
  let lv : Option LiveStats := (liveData pk.element).map (fun e => e.stats)
  let player : Option Player := playerMap snap pk.element
  { name := pyStr (player.map (fun p => p.first_name)) ++ " " ++
      pyStr (player.map (fun p => p.second_name)),
    team := (player.map (fun p => p.team)).bind (teamMap snap),
    position := (player.map (fun p => p.element_type)).bind (posMap snap),
    price := (((player.map (fun p => p.now_cost)).getD 0 : ℚ)) / 10,
    multiplier := pk.multiplier,
    is_captain := pk.is_captain,
    is_vice_captain := pk.is_vice_captain,
    points := ((lv.map (fun s => s.total_points)).getD 0) }

/-- enrich_manager_picks(raw): reshapes the payload; the live-scores fetch
for entry_history.event is passed in as the already-fetched payload. -/
def enrich_manager_picks (snap : Bootstrap) (live : List LiveElem) (raw : PicksRaw) :
    ManagerPicksOut :=
  let entry := raw.entry_history
  { gameweek := entry.bind (fun e => e.event),
    points := entry.bind (fun e => e.points),
    total_points := entry.bind (fun e => e.total_points),
    overall_rank := entry.bind (fun e => e.overall_rank),
    team_value := (((entry.bind (fun e => e.value)).getD 0 : ℤ) : ℚ) / 10,
    bank := (((entry.bind (fun e => e.bank)).getD 0 : ℤ) : ℚ) / 10,
    transfers := entry.bind (fun e => e.event_transfers),
    transfer_cost := entry.bind (fun e => e.event_transfers_cost),
    bench_points := entry.bind (fun e => e.points_on_bench),
    chip_used := raw.active_chip,
    squad := raw.picks.map (resolvePickLoose snap live) }

/-! ## Value picks -/

/-- The exact points-per-cost ratio of a player (only meaningful when
now_cost is nonzero; the code guards this by failing, see below). -/
def ratioQ (p : Player) : ℚ :=
  (p.total_points : ℚ) / (p.now_cost : ℚ)

/-- One output row of top_value_picks. -/
structure ValueEntry extends DisplayPlayer where
  ppm : ℚ
  points : ℤ
  deriving Repr, DecidableEq

/-- The enriched row top_value_picks builds for a ranked player. -/
def valueEntryOf (snap : Bootstrap) (p : Player) : Option ValueEntry :=
  (enrich_player snap p.id).map (fun d =>
    { toDisplayPlayer := d, ppm := roundTo 2 (ratioQ p), points := p.total_points })

/-- The total version of the enriched row, defined when enrichment is. -/
def valueEntryOfD (snap : Bootstrap) (p : Player) : ValueEntry :=
  (valueEntryOf snap p).getD ⟨⟨0, "", "", "", 0⟩, 0, 0⟩

/-- top_value_picks(limit, min_mins): filters elements by the minutes
floor, then sorts them descending by total_points / now_cost.  CPython
sorted computes the key of every element before comparing, so a single
zero-cost element among the filtered ones raises ZeroDivisionError and
the whole call fails; there is no cost filter in the code. -/
def top_value_picks (snap : Bootstrap) (limit min_mins : Nat) :
    Option (List ValueEntry) := do
  let els := snap.elements.filter (fun p => decide (min_mins ≤ p.minutes))
  let keyed ← mapO (fun p => (pyDiv (p.total_points : ℚ) (p.now_cost : ℚ)).map
      (fun r => (p, r))) els
  let vals := (keyed.mergeSort (fun a b => decide (b.2 ≤ a.2))).map (fun kv => kv.1)
  mapO (valueEntryOf snap) (vals.take limit)

/-! ## League standings -/

/-- get_top_manager_ids(league_id, top_n): performs ONE standings fetch
(page 1, the default page of the request) and slices the first top_n
entry ids from it; the standings endpoint is modelled as the function
from page number to the entry ids on that page. -/
def get_top_manager_ids (api : Nat → List Nat) (top_n : Nat) : List Nat :=
  (api 1).take top_n

/-- Modelled from the spec: the paginated topManagerIds the specification
describes (no such loop exists in src/tools/fpl_tools.py, which performs a
single page-1 fetch).  Pages are fetched in order starting at 1 and
accumulated until top_n entries are collected or a page returns fewer
than a full page of page_size entries; the fuel bounds the recursion. -/
def topManagerIdsSpecGo (api : Nat → List Nat) (page_size top_n : Nat) :
    Nat → Nat → List Nat → List Nat
  | 0, _, acc => acc.take top_n
  | fuel + 1, page, acc =>
    if top_n ≤ acc.length then acc.take top_n
    else if (api page).length < page_size then (acc ++ api page).take top_n
    else topManagerIdsSpecGo api page_size top_n fuel (page + 1) (acc ++ api page)

/-- Modelled from the spec: paginated standings collection. -/
def topManagerIdsSpec (api : Nat → List Nat) (page_size top_n : Nat) : List Nat :=
  topManagerIdsSpecGo api page_size top_n (top_n + 1) 1 []

/-! ## Cohort aggregation (Except world: fetches may fail) -/

/-- One output row of ownership_trend. -/
structure OwnEntry extends DisplayPlayer where
  pct : ℚ
  deriving Repr, DecidableEq

/-- One output row of get_template_team. -/
structure TemplEntry extends DisplayPlayer where
  selected_by : Nat
  deriving Repr, DecidableEq

/-- ownership_trend(team_ids, gw): one picks fetch per manager inside the
loop; a fetch failure raises out of the loop (no try/except in the code).
The per-player percentage divides by len(team_ids). -/
def ownership_trend (fetchPicks : Nat → Nat → Except String (List Pick))
    (snap : Bootstrap) (team_ids : List Nat) (gw : Nat) :
    Except String (List OwnEntry) := do
  let counter ← foldE (fun acc tid => do
      let picks ← fetchPicks tid gw
      pure (picks.foldl (fun a p => bumpKey a p.element) acc)) [] team_ids
  let total : Nat := team_ids.length
  let sortedC := counter.mergeSort (fun a b => decide (b.2 ≤ a.2))
  mapE (fun kc => do
      let d ← liftOpt (enrich_player snap kc.1)
      let pct ← liftOpt (pyDiv ((kc.2 : ℚ) * 100) (total : ℚ))
      pure { toDisplayPlayer := d, pct := roundTo 1 pct }) sortedC

/-- chip_usage_summary(team_ids): one history fetch per manager inside the
loop (modelled by its chips list); a fetch failure raises out of the loop.
Returns the chip_GW counter sorted descending by count. -/
def chip_usage_summary (fetchChips : Nat → Except String (List Chip))
    (team_ids : List Nat) : Except String (List (String × Nat)) := do
  let counter ← foldE (fun acc tid => do
      let chips ← fetchChips tid
      pure (chips.foldl (fun a c => bumpKey a (c.chip ++ "_GW" ++ toString c.event)) acc))
    [] team_ids
  pure (counter.mergeSort (fun a b => decide (b.2 ≤ a.2)))

/-- get_template_team(league_id, gw, top_n): resolves the top manager ids
from the standings (single page-1 fetch), then one picks fetch per manager
inside the loop; a fetch failure raises out of the loop.  Takes the 15
most common players. -/
def get_template_team (standings : Except String (Nat → List Nat))
    (fetchPicks : Nat → Nat → Except String (List Pick))
    (snap : Bootstrap) (gw top_n : Nat) : Except String (List TemplEntry) := do
  let api ← standings
  let ids := get_top_manager_ids api top_n
  let counter ← foldE (fun acc tid => do
      let picks ← fetchPicks tid gw
      pure (picks.foldl (fun a p => bumpKey a p.element) acc)) [] ids
  let common := (counter.mergeSort (fun a b => decide (b.2 ≤ a.2))).take 15
  mapE (fun kc => do
      let d ← liftOpt (enrich_player snap kc.1)
      pure { toDisplayPlayer := d, selected_by := kc.2 }) common

/-! ## Captain and transfer suggestions -/

/-- suggest_captain(team_id, gw): the picks and live payloads are passed
in already fetched; pts.get(element, 0) defaults a missing live entry to
0; Python max raises on an empty squad and keeps the first maximum. -/
def captainPts (live : List LiveElem) (pk : Pick) : ℤ :=
  ((pyDictGet (live.map (fun e => (e.id, e.stats.total_points))) pk.element).getD 0)

/-- suggest_captain. -/
def suggest_captain (snap : Bootstrap) (picks : List Pick) (live : List LiveElem) :
    Option DisplayPlayer := do
  let best ← pyMaxBy (captainPts live) picks
  enrich_player snap best.element

/-- One move suggested by suggest_transfers. -/
structure Move where
  sell : SquadEntry
  buy : ValueEntry
  deriving Repr, DecidableEq

/-- The inner replacement scan of suggest_transfers: the first value pick
of the same position within budget, if any (the break in the code). -/
def firstReplacement (bank : ℚ) (reps : List ValueEntry) (b : SquadEntry) :
    Option Move :=
  (reps.find? (fun r => decide (r.price ≤ b.price + bank) &&
      decide (r.position = b.position))).map (fun r => { sell := b, buy := r })

/-- The underperformer scan of suggest_transfers: each squad member is
mapped back to a player id through playerMapInv by its display name (a
direct subscript, raising when the name is absent from the map) and kept
when its trailing form is below 3. -/
def underperformers (snap : Bootstrap) (form : Nat → ℚ) (squad : List SquadEntry) :
    Option (List SquadEntry) :=
  filterO (fun p => (playerMapInv snap p.name).map
      (fun pid => decide (form pid < 3))) squad

/-- suggest_transfers(team_id, gw, budget): the picks payload is passed in
already fetched and the trailing-form oracle stands for get_recent_form.
entry_history and its bank field are direct subscripts (raise when
absent); the replacement pool is top_value_picks(30). -/
def suggest_transfers (snap : Bootstrap) (form : Nat → ℚ) (raw : PicksRaw)
    (budget : ℚ) : Option (List Move) := do
  let hist ← raw.entry_history
  let bankRaw ← hist.bank
  let bank : ℚ := (bankRaw : ℚ) / 10 + budget
  let squad ← resolve_player_picks snap raw.picks
  let bad ← underperformers snap form squad
  let reps ← top_value_picks snap 30 900
  let moves := bad.filterMap (firstReplacement bank reps)
  pure (moves.take 3)

/-! ## Concrete fixtures used by examples, witnesses and counterexamples -/

/-- Sample player: Alice Smith, Reds, DEF, cost 55, 40 points, 900 minutes. -/
def playerAlice : Player := ⟨7, "Alice", "Smith", 1, 2, 55, 40, 900⟩

/-- Sample player: Bob Jones, Reds, MID, cost 80, 100 points, 1200 minutes. -/
def playerBob : Player := ⟨8, "Bob", "Jones", 1, 3, 80, 100, 1200⟩

/-- Sample player: Carol White, Blues, FWD, cost 100, 100 points (tied with
Bob, later in catalog order), 800 minutes. -/
def playerCarol : Player := ⟨9, "Carol", "White", 2, 4, 100, 100, 800⟩

/-- A small well-formed bootstrap snapshot. -/
def snapA : Bootstrap :=
  ⟨[playerAlice, playerBob, playerCarol],
   [⟨1, "Reds", 300⟩, ⟨2, "Blues", 150⟩],
   [⟨1, "GK"⟩, ⟨2, "DEF"⟩, ⟨3, "MID"⟩, ⟨4, "FWD"⟩]⟩

/-- Squad picks for players 7, 8, 9 (the example of the specification). -/
def picksEx : List Pick := [⟨7, 1, false, false⟩, ⟨8, 1, true, false⟩, ⟨9, 1, false, true⟩]

/-- Live totals 7 to 2, 8 to 10, 9 to 6 (the example of the specification). -/
def liveEx : List LiveElem := [⟨7, ⟨2⟩⟩, ⟨8, ⟨10⟩⟩, ⟨9, ⟨6⟩⟩]

/-- A snapshot holding one zero-cost player with plenty of minutes. -/
def snapZeroCost : Bootstrap :=
  ⟨[⟨1, "Zed", "Zero", 1, 1, 0, 5, 1000⟩], [⟨1, "Reds", 300⟩], [⟨1, "GK"⟩]⟩

/-- A picks oracle whose fetch fails for manager 2 and succeeds otherwise. -/
def fetchPicksBoom : Nat → Nat → Except String (List Pick) :=
  fun tid _ => if tid = 2 then Except.error "boom" else Except.ok [⟨7, 1, true, false⟩]

/-- A history-chips oracle whose fetch fails for manager 2. -/
def fetchChipsBoom : Nat → Except String (List Chip) :=
  fun tid => if tid = 2 then Except.error "boom" else Except.ok [⟨"wildcard", 8⟩]

/-- A standings table with managers 1 and 2 on page 1. -/
def apiOnePage : Nat → List Nat := fun pg => if pg = 1 then [1, 2] else []

/-- A standings table with a full first page (size 2) and a second page. -/
def apiTwoPages : Nat → List Nat :=
  fun pg => if pg = 1 then [11, 12] else if pg = 2 then [13] else []

/-- A raw picks payload referencing player id 99 (absent from snapA). -/
def rawPicks99 : PicksRaw :=
  ⟨some ⟨some 5, some 60, some 1000, some 5000, some 1003, some 15, some 1, some 0, some 7⟩,
   [⟨99, 1, false, false⟩], none⟩

/-- A snapshot with two distinct players sharing the full name John Doe. -/
def snapDup : Bootstrap :=
  ⟨[⟨1, "John", "Doe", 1, 1, 50, 10, 0⟩, ⟨2, "John", "Doe", 1, 1, 60, 20, 0⟩],
   [⟨1, "Reds", 300⟩], [⟨1, "GK"⟩]⟩

/-- A trailing-form oracle that rates every player 0 (all underperform). -/
def formZero : Nat → ℚ := fun _ => 0

/-- A squad row whose display name belongs to no player of snapA. -/
def ghostSquad : List SquadEntry := [⟨⟨3, "Ghost Player", "Reds", "GK", 0⟩, 1, false, false⟩]

/-- A raw picks payload holding one pick of player 7 and bank 15. -/
def rawAlicePick : PicksRaw :=
  ⟨some ⟨some 5, some 60, some 1000, some 5000, some 1003, some 15, some 1, some 0, some 7⟩,
   [⟨7, 1, false, false⟩], none⟩

/-- Whether an Except computation ended in an error (a raised exception). -/
def isErr : Except String α → Bool
  | Except.error _ => true
  | Except.ok _ => false

/-! ## Helper lemmas -/

theorem mapO_eq_some_map (f : α → Option β) (g : α → β) :
    ∀ l : List α, (∀ x ∈ l, f x = some (g x)) → mapO f l = some (l.map g)
  | [], _ => rfl
  | x :: xs, h => by
    have hx := h x (by simp)
    have ih := mapO_eq_some_map f g xs (fun y hy => h y (by simp [hy]))
    simp only [mapO, hx, ih, List.map_cons, Option.bind_eq_bind, Option.some_bind]
    rfl

theorem filterO_none_of_mem (p : α → Option Bool) :
    ∀ l : List α, (∃ x ∈ l, p x = none) → filterO p l = none
  | [], h => absurd h (by simp)
  | x :: xs, h => by
    rcases h with ⟨y, hy, hpy⟩
    rcases List.mem_cons.mp hy with rfl | hmem
    · simp only [filterO, hpy, Option.bind_eq_bind, Option.none_bind]
    · cases hpx : p x with
      | none => simp only [filterO, hpx, Option.bind_eq_bind, Option.none_bind]
      | some b =>
        have ih := filterO_none_of_mem p xs ⟨y, hmem, hpy⟩
        simp only [filterO, hpx, ih, Option.bind_eq_bind, Option.some_bind,
          Option.none_bind]

theorem exceptBind_isErr {x : Except String γ} (f : γ → Except String δ)
    (h : isErr x = true) : isErr (x >>= f) = true := by
  cases x with
  | error e => rfl
  | ok a => simp [isErr] at h

theorem foldE_isErr (fetch : α → Except String γ) (g : β → α → γ → β) :
    ∀ ids : List α, (∃ t ∈ ids, isErr (fetch t) = true) → ∀ acc : β,
      isErr (foldE (fun acc x => do
        let y ← fetch x
        pure (g acc x y)) acc ids) = true
  | [], h, acc => absurd h (by simp)
  | x :: xs, h, acc => by
    rcases h with ⟨t, ht, hterr⟩
    cases hfx : fetch x with
    | error e =>
      simp only [foldE]
      rw [hfx]
      rfl
    | ok y =>
      rcases List.mem_cons.mp ht with rfl | hmem
      · rw [hfx] at hterr; exact absurd hterr (by simp [isErr])
      · have ih := foldE_isErr fetch g xs ⟨t, hmem, hterr⟩ (g acc x y)
        simp only [foldE]
        rw [hfx]
        exact ih

theorem ptsDesc_trans : ∀ a b c : Player,
    (fun a b : Player => decide (b.total_points ≤ a.total_points)) a b = true →
    (fun a b : Player => decide (b.total_points ≤ a.total_points)) b c = true →
    (fun a b : Player => decide (b.total_points ≤ a.total_points)) a c = true := by
  intro a b c hab hbc
  simp only [decide_eq_true_eq] at *
  omega

theorem ptsDesc_total : ∀ a b : Player,
    ((fun a b : Player => decide (b.total_points ≤ a.total_points)) a b ||
     (fun a b : Player => decide (b.total_points ≤ a.total_points)) b a) = true := by
  intro a b
  simp only [Bool.or_eq_true, decide_eq_true_eq]
  omega

theorem mergeSort_pts_pairwise (l : List Player) :
    (l.mergeSort (fun a b => decide (b.total_points ≤ a.total_points))).Pairwise
      (fun a b => b.total_points ≤ a.total_points) := by
  have h := List.sorted_mergeSort ptsDesc_trans ptsDesc_total l
  exact h.imp (by intro a b hab; simpa using hab)

theorem mergeSort_pts_filter_eq (l : List Player) (v : ℤ) :
    (l.mergeSort (fun a b => decide (b.total_points ≤ a.total_points))).filter
      (fun p => decide (p.total_points = v)) =
    l.filter (fun p => decide (p.total_points = v)) := by
  have hpw : (l.filter (fun p => decide (p.total_points = v))).Pairwise
      (fun a b => (fun a b : Player => decide (b.total_points ≤ a.total_points)) a b = true) := by
    apply List.pairwise_of_forall_mem_list
    intro a ha b hb
    have h1 := (List.mem_filter.mp ha).2
    have h2 := (List.mem_filter.mp hb).2
    simp only [decide_eq_true_eq] at *
    omega
  have hsub : (l.filter (fun p => decide (p.total_points = v))).Sublist
      (l.mergeSort (fun a b => decide (b.total_points ≤ a.total_points))) :=
    List.sublist_mergeSort ptsDesc_trans ptsDesc_total hpw (List.filter_sublist l)
  have hsub2 : (l.filter (fun p => decide (p.total_points = v))).Sublist
      ((l.mergeSort (fun a b => decide (b.total_points ≤ a.total_points))).filter
        (fun p => decide (p.total_points = v))) := by
    have h3 := hsub.filter (fun p => decide (p.total_points = v))
    rwa [List.filter_filter, (by funext a; simp :
      (fun a : Player => decide (a.total_points = v) && decide (a.total_points = v)) =
      (fun a : Player => decide (a.total_points = v)))] at h3
  have hperm : ((l.mergeSort (fun a b => decide (b.total_points ≤ a.total_points))).filter
      (fun p => decide (p.total_points = v))).Perm
      (l.filter (fun p => decide (p.total_points = v))) :=
    (List.mergeSort_perm l _).filter _
  exact (hsub2.eq_of_length hperm.length_eq.symm).symm

/-! ## Claim theorems -/

/-- C5: for every snapshot and limit at least 1, get_top_players returns a
list of length min(limit, player count), sorted non-increasing by total
points, drawn from the catalog, with ties kept in original catalog order
(the returned players with any fixed points total form a sublist of the
catalog filtered to that total). -/
theorem c5_top_players_sorted (snap : Bootstrap) (limit : Nat) (h : 1 ≤ limit) :
    (get_top_players snap limit).length = min limit snap.elements.length ∧
    (get_top_players snap limit).Pairwise
      (fun a b => b.total_points ≤ a.total_points) ∧
    (∀ p ∈ get_top_players snap limit, p ∈ snap.elements) ∧
    (∀ v : ℤ, ((get_top_players snap limit).filter (fun p => decide (p.total_points = v))).Sublist
      (snap.elements.filter (fun p => decide (p.total_points = v)))) := by
  refine ⟨?_, ?_, ?_, ?_⟩
  · simp [get_top_players, List.length_take, List.length_mergeSort]
  · exact (mergeSort_pts_pairwise snap.elements).sublist (List.take_sublist _ _)
  · intro p hp
    exact List.mem_mergeSort.mp (List.mem_of_mem_take hp)
  · intro v
    have h1 : ((get_top_players snap limit).filter (fun p => decide (p.total_points = v))).Sublist
        ((snap.elements.mergeSort (fun a b => decide (b.total_points ≤ a.total_points))).filter
          (fun p => decide (p.total_points = v))) :=
      (List.take_sublist _ _).filter _
    rwa [mergeSort_pts_filter_eq] at h1

/-- C5 witness: at the concrete snapshot snapA with limit 2 the hypothesis
holds and the conclusion follows by the theorem. -/
theorem c5_top_players_sorted_witness :
    1 ≤ 2 ∧
    ((get_top_players snapA 2).length = min 2 snapA.elements.length ∧
    (get_top_players snapA 2).Pairwise
      (fun a b => b.total_points ≤ a.total_points) ∧
    (∀ p ∈ get_top_players snapA 2, p ∈ snapA.elements) ∧
    (∀ v : ℤ, ((get_top_players snapA 2).filter (fun p => decide (p.total_points = v))).Sublist
      (snapA.elements.filter (fun p => decide (p.total_points = v))))) :=
  ⟨by decide, c5_top_players_sorted snapA 2 (by decide)⟩

/-- C6: over strength values 1..599 the bucket (strength // 100) or 1
always lands in the domain of fdr_map (the subscript never fails), and the
map sends buckets 1 and 2 to EASY, 3 to MED, 4 and 5 to HARD. -/
theorem c6_fdr_bucket_total :
    (∀ s : Nat, 1 ≤ s → s ≤ 599 → (fdrRating s).isSome = true) ∧
    fdr_map 1 = some "EASY" ∧ fdr_map 2 = some "EASY" ∧ fdr_map 3 = some "MED" ∧
    fdr_map 4 = some "HARD" ∧ fdr_map 5 = some "HARD" := by
  refine ⟨?_, by decide, by decide, by decide, by decide, by decide⟩
  intro s h1 h2
  have h5 : fdrBucket s = 1 ∨ fdrBucket s = 2 ∨ fdrBucket s = 3 ∨
      fdrBucket s = 4 ∨ fdrBucket s = 5 := by
    unfold fdrBucket
    split <;> omega
  unfold fdrRating
  rcases h5 with h | h | h | h | h <;> rw [h] <;> decide

/-- C6 witness: strength 307 is in range and its rating is defined. -/
theorem c6_fdr_bucket_total_witness :
    1 ≤ 307 ∧ 307 ≤ 599 ∧ (fdrRating 307).isSome = true :=
  ⟨by decide, by decide, c6_fdr_bucket_total.1 307 (by decide) (by decide)⟩

/-- C7: get_top_players_by_position is case-insensitive in the position
code (only the upper-cased code matters); an unrecognized code returns the
empty list rather than an error; a recognized (nonzero) position id yields
the top limit players of that position sorted descending by total points. -/
theorem c7_top_players_by_position :
    (∀ snap c1 c2 limit, pyUpper c1 = pyUpper c2 →
      get_top_players_by_position snap c1 limit =
        get_top_players_by_position snap c2 limit) ∧
    (∀ snap c limit,
      pyDictGet (snap.element_types.map (fun e => (e.singular_name_short, e.id)))
        (pyUpper c) = none →
      get_top_players_by_position snap c limit = []) ∧
    (∀ snap c limit pid,
      pyDictGet (snap.element_types.map (fun e => (e.singular_name_short, e.id)))
        (pyUpper c) = some pid →
      pid ≠ 0 →
      (get_top_players_by_position snap c limit).length =
        min limit (snap.elements.filter (fun p => decide (p.element_type = pid))).length ∧
      (get_top_players_by_position snap c limit).Pairwise
        (fun a b => b.total_points ≤ a.total_points) ∧
      (∀ p ∈ get_top_players_by_position snap c limit,
        p ∈ snap.elements ∧ p.element_type = pid)) := by
  refine ⟨?_, ?_, ?_⟩
  · intro snap c1 c2 limit h
    simp only [get_top_players_by_position, h]
  · intro snap c limit h
    simp only [get_top_players_by_position, h]
  · intro snap c limit pid h hpid
    simp only [get_top_players_by_position, h, if_neg hpid]
    refine ⟨?_, ?_, ?_⟩
    · simp [List.length_take, List.length_mergeSort]
    · exact (mergeSort_pts_pairwise _).sublist (List.take_sublist _ _)
    · intro p hp
      have hm := List.mem_mergeSort.mp (List.mem_of_mem_take hp)
      have := List.mem_filter.mp hm
      exact ⟨this.1, by simpa using this.2⟩

/-- C7 witness: the code mid equals MID after upper-casing, an unknown code
returns the empty list, and the known code MID (id 3) yields the ranked
midfielders of snapA. -/
theorem c7_top_players_by_position_witness :
    pyUpper "mid" = "MID" ∧
    pyDictGet (snapA.element_types.map (fun e => (e.singular_name_short, e.id)))
      (pyUpper "XX") = none ∧
    pyDictGet (snapA.element_types.map (fun e => (e.singular_name_short, e.id)))
      (pyUpper "mid") = some 3 ∧
    get_top_players_by_position snapA "mid" 5 =
      get_top_players_by_position snapA "MID" 5 ∧
    get_top_players_by_position snapA "XX" 5 = [] ∧
    ((get_top_players_by_position snapA "mid" 5).length =
        min 5 (snapA.elements.filter (fun p => decide (p.element_type = 3))).length ∧
      (get_top_players_by_position snapA "mid" 5).Pairwise
        (fun a b => b.total_points ≤ a.total_points) ∧
      (∀ p ∈ get_top_players_by_position snapA "mid" 5,
        p ∈ snapA.elements ∧ p.element_type = 3)) :=
  ⟨by decide, by decide, by decide,
   c7_top_players_by_position.1 snapA "mid" "MID" 5 (by decide),
   c7_top_players_by_position.2.1 snapA "XX" 5 (by decide),
   c7_top_players_by_position.2.2 snapA "mid" 5 3 (by decide) (by decide)⟩

/-- C9: ownership_trend on the empty cohort returns the empty list without
ever reaching the division by the cohort size (a division by zero would
surface as an error value, and the result is a successful empty list). -/
theorem c9_ownership_trend_empty (fetch : Nat → Nat → Except String (List Pick))
    (snap : Bootstrap) (gw : Nat) :
    ownership_trend fetch snap [] gw = Except.ok [] := by
  simp only [ownership_trend, foldE, Bind.bind, Except.bind, List.mergeSort_nil, mapE]

/-- C3 counterexample: the raw picks payload referencing player id 99,
absent from snapA, does not make enrich_manager_picks fail; it returns a
squad entry with name None None, null team and null position. -/
theorem c3_enrich_counterexample :
    playerMap snapA 99 = none ∧
    ∃ e ∈ (enrich_manager_picks snapA [] rawPicks99).squad,
      e.name = "None None" ∧ e.team = none ∧ e.position = none := by
  refine ⟨by decide, resolvePickLoose snapA [] ⟨99, 1, false, false⟩,
    List.mem_cons_self _ _, rfl, rfl, rfl⟩

/-- C3 amended: _enrich_player with an id absent from the snapshot always
fails; enrich_manager_picks, however, does not fail on an absent player
id: its squad is the loose per-pick resolution, and for a pick whose id is
absent from the snapshot that row has name None None and null team and
position. -/
theorem c3_enrich_missing_id (snap : Bootstrap) :
    (∀ pid, playerMap snap pid = none → enrich_player snap pid = none) ∧
    (∀ live raw, (enrich_manager_picks snap live raw).squad =
      raw.picks.map (resolvePickLoose snap live)) ∧
    (∀ live pk, playerMap snap pk.element = none →
      (resolvePickLoose snap live pk).name = "None None" ∧
      (resolvePickLoose snap live pk).team = none ∧
      (resolvePickLoose snap live pk).position = none) := by
  refine ⟨?_, ?_, ?_⟩
  · intro pid h
    simp only [enrich_player, h, Option.bind_eq_bind, Option.none_bind]
  · intro live raw
    rfl
  · intro live pk h
    simp only [resolvePickLoose, h]
    exact ⟨rfl, rfl, rfl⟩

/-- C3 witness: the amended theorem applied at snapA, player id 99. -/
theorem c3_enrich_missing_id_witness :
    playerMap snapA 99 = none ∧
    enrich_player snapA 99 = none ∧
    ((enrich_manager_picks snapA [] rawPicks99).squad =
      rawPicks99.picks.map (resolvePickLoose snapA [])) ∧
    ((resolvePickLoose snapA [] ⟨99, 1, false, false⟩).name = "None None" ∧
     (resolvePickLoose snapA [] ⟨99, 1, false, false⟩).team = none ∧
     (resolvePickLoose snapA [] ⟨99, 1, false, false⟩).position = none) :=
  ⟨by decide, (c3_enrich_missing_id snapA).1 99 (by decide),
   (c3_enrich_missing_id snapA).2.1 [] rawPicks99,
   (c3_enrich_missing_id snapA).2.2 [] ⟨99, 1, false, false⟩ (by decide)⟩

/-- C4 counterexample: with a full first page of 2 entries, a second page,
and top_n = 3, the code returns only the 2 entries of the first page while
the paginated collection of the claim returns 3. -/
theorem c4_pagination_counterexample :
    get_top_manager_ids apiTwoPages 3 = [11, 12] ∧
    topManagerIdsSpec apiTwoPages 2 3 = [11, 12, 13] ∧
    get_top_manager_ids apiTwoPages 3 ≠ topManagerIdsSpec apiTwoPages 2 3 := by
  refine ⟨rfl, ?_, ?_⟩ <;> decide

/-- C4 amended: get_top_manager_ids performs a single page-1 standings
fetch and returns its first top_n entry ids (so its length is
min(top_n, page-1 size)); it agrees with the paginated collection of the
specification exactly when the first page already holds top_n entries. -/
theorem c4_single_page (api : Nat → List Nat) (page_size top_n : Nat)
    (h : top_n ≤ (api 1).length) :
    get_top_manager_ids api top_n = (api 1).take top_n ∧
    (get_top_manager_ids api top_n).length = min top_n (api 1).length ∧
    get_top_manager_ids api top_n = topManagerIdsSpec api page_size top_n := by
  refine ⟨rfl, by simp [get_top_manager_ids, List.length_take], ?_⟩
  show (api 1).take top_n = topManagerIdsSpec api page_size top_n
  unfold topManagerIdsSpec
  cases top_n with
  | zero =>
    rw [topManagerIdsSpecGo, if_pos (by simp)]
    simp
  | succ m =>
    rw [topManagerIdsSpecGo, if_neg (by simp)]
    by_cases hps : (api 1).length < page_size
    · rw [if_pos hps]
      simp
    · rw [if_neg hps, topManagerIdsSpecGo, if_pos (by simpa using h)]
      simp

/-- C4 witness: the amended theorem applied to the one-page standings with
top_n = 2 and page size 2. -/
theorem c4_single_page_witness :
    2 ≤ (apiOnePage 1).length ∧
    (get_top_manager_ids apiOnePage 2 = (apiOnePage 1).take 2 ∧
     (get_top_manager_ids apiOnePage 2).length = min 2 (apiOnePage 1).length ∧
     get_top_manager_ids apiOnePage 2 = topManagerIdsSpec apiOnePage 2 2) :=
  ⟨by decide, c4_single_page apiOnePage 2 2 (by decide)⟩

theorem pyMaxBy_first_max (key : α → ℤ) :
    ∀ (x : α) (xs : List α), ∃ r l1 l2,
      pyMaxBy key (x :: xs) = some r ∧ x :: xs = l1 ++ r :: l2 ∧
      (∀ y ∈ l1, key y < key r) ∧ (∀ y ∈ x :: xs, key y ≤ key r)
  | x, [] => ⟨x, [], [], rfl, rfl, by simp, by simp⟩
  | x, y :: ys => by
    by_cases hxy : key x < key y
    · obtain ⟨r, l1, l2, hr, hdec, hlt, hle⟩ := pyMaxBy_first_max key y ys
      have step : pyMaxBy key (x :: y :: ys) = pyMaxBy key (y :: ys) := by
        simp [pyMaxBy, List.foldl_cons, hxy]
      have hyr : key y ≤ key r := hle y (by simp)
      refine ⟨r, x :: l1, l2, by rw [step, hr], ?_, ?_, ?_⟩
      · rw [List.cons_append, ← hdec]
      · intro z hz
        rcases List.mem_cons.mp hz with rfl | hz'
        · omega
        · exact hlt z hz'
      · intro z hz
        rcases List.mem_cons.mp hz with rfl | hz'
        · omega
        · exact hle z hz'
    · obtain ⟨r, l1, l2, hr, hdec, hlt, hle⟩ := pyMaxBy_first_max key x ys
      have step : pyMaxBy key (x :: y :: ys) = pyMaxBy key (x :: ys) := by
        simp [pyMaxBy, List.foldl_cons, hxy]
      cases l1 with
      | nil =>
        simp only [List.nil_append] at hdec
        injection hdec with h1 h2
        subst h1
        subst h2
        refine ⟨x, [], y :: ys, by rw [step, hr], rfl, by simp, ?_⟩
        intro z hz
        rcases List.mem_cons.mp hz with rfl | hz'
        · exact le_refl _
        rcases List.mem_cons.mp hz' with rfl | hz''
        · omega
        · exact hle z (by simp [hz''])
      | cons a l1' =>
        rw [List.cons_append] at hdec
        injection hdec with h1 h2
        subst h1
        have hxr : key x < key r := hlt x (by simp)
        refine ⟨r, x :: y :: l1', l2, by rw [step, hr], ?_, ?_, ?_⟩
        · rw [List.cons_append, List.cons_append, ← h2]
        · intro z hz
          rcases List.mem_cons.mp hz with rfl | hz'
          · exact hxr
          rcases List.mem_cons.mp hz' with rfl | hz''
          · omega
          · exact hlt z (by simp [hz''])
        · intro z hz
          rcases List.mem_cons.mp hz with rfl | hz'
          · omega
          rcases List.mem_cons.mp hz' with rfl | hz''
          · omega
          · exact hle z (by simp [hz''])

/-- C8: suggest_captain on a non-empty pick list returns the enriched
record of the first pick attaining the maximum live total-points (missing
live entries defaulting to 0), and on the example picks 7, 8, 9 with live
totals 2, 10, 6 it returns the enriched record of player 8. -/
theorem c8_suggest_captain :
    (∀ (snap : Bootstrap) (picks : List Pick) (live : List LiveElem),
      picks ≠ [] →
      ∃ best l1 l2, picks = l1 ++ best :: l2 ∧
        (∀ p ∈ l1, captainPts live p < captainPts live best) ∧
        (∀ p ∈ picks, captainPts live p ≤ captainPts live best) ∧
        suggest_captain snap picks live = enrich_player snap best.element) ∧
    suggest_captain snapA picksEx liveEx = enrich_player snapA 8 ∧
    (enrich_player snapA 8).map (fun d => (d.id, d.name, d.team, d.position)) =
      some (8, "Bob Jones", "Reds", "MID") := by
  refine ⟨?_, rfl, by decide⟩
  intro snap picks live hne
  cases picks with
  | nil => exact absurd rfl hne
  | cons x xs =>
    obtain ⟨r, l1, l2, hr, hdec, hlt, hle⟩ := pyMaxBy_first_max (captainPts live) x xs
    refine ⟨r, l1, l2, hdec, hlt, hle, ?_⟩
    simp only [suggest_captain, hr, Option.bind_eq_bind, Option.some_bind]

/-- C8 witness: the universal part applied to the example picks and live
payload of the specification. -/
theorem c8_suggest_captain_witness :
    picksEx ≠ [] ∧
    (∃ best l1 l2, picksEx = l1 ++ best :: l2 ∧
      (∀ p ∈ l1, captainPts liveEx p < captainPts liveEx best) ∧
      (∀ p ∈ picksEx, captainPts liveEx p ≤ captainPts liveEx best) ∧
      suggest_captain snapA picksEx liveEx = enrich_player snapA best.element) :=
  ⟨by decide, c8_suggest_captain.1 snapA picksEx liveEx (by decide)⟩

theorem exceptOk_bind (a : γ) (f : γ → Except String δ) :
    (Except.ok a : Except String γ) >>= f = f a := rfl

/-- C2 counterexample: in the cohort [1, 2], the fetch for manager 1
succeeds and the fetch for manager 2 fails, and ownership_trend returns
the error rather than a result containing the contribution of manager 1. -/
theorem c2_cohort_counterexample :
    fetchPicksBoom 1 5 = Except.ok [⟨7, 1, true, false⟩] ∧
    fetchPicksBoom 2 5 = Except.error "boom" ∧
    ownership_trend fetchPicksBoom snapA [1, 2] 5 = Except.error "boom" := by
  exact ⟨rfl, rfl, rfl⟩

/-- C2 amended: in each cohort aggregation (ownership_trend,
chip_usage_summary, get_template_team) a fetch failure for any manager in
the cohort aborts the whole computation with an error; no skipping
occurs. -/
theorem c2_cohort_error_propagation :
    (∀ (fetch : Nat → Nat → Except String (List Pick)) (snap : Bootstrap)
        (ids : List Nat) (gw : Nat),
      (∃ tid ∈ ids, isErr (fetch tid gw) = true) →
      isErr (ownership_trend fetch snap ids gw) = true) ∧
    (∀ (fetch : Nat → Except String (List Chip)) (ids : List Nat),
      (∃ tid ∈ ids, isErr (fetch tid) = true) →
      isErr (chip_usage_summary fetch ids) = true) ∧
    (∀ (api : Nat → List Nat) (fetch : Nat → Nat → Except String (List Pick))
        (snap : Bootstrap) (gw top_n : Nat),
      (∃ tid ∈ get_top_manager_ids api top_n, isErr (fetch tid gw) = true) →
      isErr (get_template_team (Except.ok api) fetch snap gw top_n) = true) := by
  refine ⟨?_, ?_, ?_⟩
  · intro fetch snap ids gw h
    have hf := foldE_isErr (fun tid => fetch tid gw)
      (fun acc tid picks => picks.foldl (fun a p => bumpKey a p.element) acc) ids h []
    unfold ownership_trend
    exact exceptBind_isErr _ hf
  · intro fetch ids h
    have hf := foldE_isErr (fun tid => fetch tid)
      (fun acc tid chips =>
        chips.foldl (fun a c => bumpKey a (c.chip ++ "_GW" ++ toString c.event)) acc)
      ids h []
    unfold chip_usage_summary
    exact exceptBind_isErr _ hf
  · intro api fetch snap gw top_n h
    have hf := foldE_isErr (fun tid => fetch tid gw)
      (fun acc tid picks => picks.foldl (fun a p => bumpKey a p.element) acc)
      (get_top_manager_ids api top_n) h []
    unfold get_template_team
    rw [exceptOk_bind]
    exact exceptBind_isErr _ hf

/-- C2 witness: the amended theorem applied to the cohort [1, 2] with the
failing oracles. -/
theorem c2_cohort_error_propagation_witness :
    (∃ tid ∈ [1, 2], isErr (fetchPicksBoom tid 5) = true) ∧
    isErr (ownership_trend fetchPicksBoom snapA [1, 2] 5) = true ∧
    (∃ tid ∈ [1, 2], isErr (fetchChipsBoom tid) = true) ∧
    isErr (chip_usage_summary fetchChipsBoom [1, 2]) = true ∧
    (∃ tid ∈ get_top_manager_ids apiOnePage 2, isErr (fetchPicksBoom tid 7) = true) ∧
    isErr (get_template_team (Except.ok apiOnePage) fetchPicksBoom snapA 7 2) = true :=
  ⟨by decide,
   c2_cohort_error_propagation.1 fetchPicksBoom snapA [1, 2] 5 (by decide),
   by decide,
   c2_cohort_error_propagation.2.1 fetchChipsBoom [1, 2] (by decide),
   by decide,
   c2_cohort_error_propagation.2.2 apiOnePage fetchPicksBoom snapA 7 2 (by decide)⟩

theorem ratioDesc_trans : ∀ a b c : Player × ℚ,
    (fun a b : Player × ℚ => decide (b.2 ≤ a.2)) a b = true →
    (fun a b : Player × ℚ => decide (b.2 ≤ a.2)) b c = true →
    (fun a b : Player × ℚ => decide (b.2 ≤ a.2)) a c = true := by
  intro a b c hab hbc
  simp only [decide_eq_true_eq] at *
  exact le_trans hbc hab

theorem ratioDesc_total : ∀ a b : Player × ℚ,
    ((fun a b : Player × ℚ => decide (b.2 ≤ a.2)) a b ||
     (fun a b : Player × ℚ => decide (b.2 ≤ a.2)) b a) = true := by
  intro a b
  simp only [Bool.or_eq_true, decide_eq_true_eq]
  exact le_total b.2 a.2

theorem top_value_picks_some (snap : Bootstrap) (limit min_mins : Nat)
    (h1 : ∀ p ∈ snap.elements, min_mins ≤ p.minutes → p.now_cost ≠ 0)
    (h2 : ∀ p ∈ snap.elements, (enrich_player snap p.id).isSome = true) :
    ∃ ps : List Player,
      top_value_picks snap limit min_mins = some (ps.map (valueEntryOfD snap)) ∧
      (∀ p ∈ ps, p ∈ snap.elements ∧ min_mins ≤ p.minutes ∧ 0 < p.now_cost) ∧
      ps.Pairwise (fun a b => ratioQ b ≤ ratioQ a) ∧
      ps.length = min limit
        (snap.elements.filter (fun p => decide (min_mins ≤ p.minutes))).length := by
  have hmem_els : ∀ p ∈ snap.elements.filter (fun p => decide (min_mins ≤ p.minutes)),
      p ∈ snap.elements ∧ min_mins ≤ p.minutes := by
    intro p hp
    have h' := List.mem_filter.mp hp
    exact ⟨h'.1, by simpa using h'.2⟩
  have hkeyed : mapO (fun p => (pyDiv (p.total_points : ℚ) (p.now_cost : ℚ)).map
        (fun r => (p, r)))
      (snap.elements.filter (fun p => decide (min_mins ≤ p.minutes))) =
      some ((snap.elements.filter (fun p => decide (min_mins ≤ p.minutes))).map
        (fun p => (p, ratioQ p))) := by
    apply mapO_eq_some_map
    intro p hp
    have hc := h1 p (hmem_els p hp).1 (hmem_els p hp).2
    have hcQ : ((p.now_cost : ℚ)) ≠ 0 := by exact_mod_cast hc
    simp [pyDiv, hcQ, ratioQ]
  have hmemM : ∀ kv ∈ ((snap.elements.filter
        (fun p => decide (min_mins ≤ p.minutes))).map
        (fun p => (p, ratioQ p))).mergeSort (fun a b => decide (b.2 ≤ a.2)),
      kv.1 ∈ snap.elements.filter (fun p => decide (min_mins ≤ p.minutes)) ∧
        kv.2 = ratioQ kv.1 := by
    intro kv hkv
    have h' := List.mem_mergeSort.mp hkv
    obtain ⟨q, hq, rfl⟩ := List.mem_map.mp h'
    exact ⟨hq, rfl⟩
  refine ⟨((((snap.elements.filter (fun p => decide (min_mins ≤ p.minutes))).map
      (fun p => (p, ratioQ p))).mergeSort (fun a b => decide (b.2 ≤ a.2))).map
      (fun kv => kv.1)).take limit, ?_, ?_, ?_, ?_⟩
  · have hfinal : mapO (valueEntryOf snap)
        (((((snap.elements.filter (fun p => decide (min_mins ≤ p.minutes))).map
          (fun p => (p, ratioQ p))).mergeSort (fun a b => decide (b.2 ≤ a.2))).map
          (fun kv => kv.1)).take limit) =
        some ((((((snap.elements.filter (fun p => decide (min_mins ≤ p.minutes))).map
          (fun p => (p, ratioQ p))).mergeSort (fun a b => decide (b.2 ≤ a.2))).map
          (fun kv => kv.1)).take limit).map (valueEntryOfD snap)) := by
      apply mapO_eq_some_map
      intro p hp
      have h' := List.mem_of_mem_take hp
      obtain ⟨kv, hkv, rfl⟩ := List.mem_map.mp h'
      have hpe : kv.1 ∈ snap.elements := (hmem_els _ (hmemM kv hkv).1).1
      obtain ⟨d, hd⟩ := Option.isSome_iff_exists.mp (h2 kv.1 hpe)
      simp [valueEntryOf, valueEntryOfD, hd]
    simp only [top_value_picks, hkeyed, Option.bind_eq_bind, Option.some_bind]
    exact hfinal
  · intro p hp
    have h' := List.mem_of_mem_take hp
    obtain ⟨kv, hkv, rfl⟩ := List.mem_map.mp h'
    have h2' := hmem_els _ (hmemM kv hkv).1
    refine ⟨h2'.1, h2'.2, ?_⟩
    have := h1 kv.1 h2'.1 h2'.2
    omega
  · have hpwM := List.sorted_mergeSort ratioDesc_trans ratioDesc_total
      ((snap.elements.filter (fun p => decide (min_mins ≤ p.minutes))).map
        (fun p => (p, ratioQ p)))
    have hpwS : ((((snap.elements.filter (fun p => decide (min_mins ≤ p.minutes))).map
        (fun p => (p, ratioQ p))).mergeSort (fun a b => decide (b.2 ≤ a.2))).Pairwise
        (fun a b => ratioQ b.1 ≤ ratioQ a.1)) := by
      refine hpwM.imp_of_mem ?_
      intro a b ha hb hab
      have ha2 := (hmemM a ha).2
      have hb2 := (hmemM b hb).2
      simp only [decide_eq_true_eq] at hab
      rw [ha2, hb2] at hab
      exact hab
    have htake := hpwS.sublist (List.take_sublist limit _)
    rw [← List.map_take]
    exact (List.pairwise_map).mpr htake
  · simp [List.length_take, List.length_map, List.length_mergeSort]

/-- C1 counterexample: a zero-cost player meeting the minutes floor is not
excluded from the ranking; the sort-key division raises and the whole call
fails. -/
theorem c1_zero_cost_counterexample :
    (∃ p ∈ snapZeroCost.elements, p.now_cost = 0 ∧ 900 ≤ p.minutes) ∧
    top_value_picks snapZeroCost 10 900 = none := by
  refine ⟨⟨⟨1, "Zed", "Zero", 1, 1, 0, 5, 1000⟩, by decide, by decide, by decide⟩, ?_⟩
  rfl

/-- C1 amended: when every player meeting the minutes floor has positive
cost (and the snapshot resolves its own players), top_value_picks succeeds
and returns only players with minutes at least min_mins and cost above 0,
ranked descending by total_points / cost, each row carrying
ppm = round(total_points / cost, 2); a zero-cost player meeting the floor
instead makes the whole call fail (see the counterexample). -/
theorem c1_top_value_picks (snap : Bootstrap) (limit min_mins : Nat)
    (h1 : ∀ p ∈ snap.elements, min_mins ≤ p.minutes → p.now_cost ≠ 0)
    (h2 : ∀ p ∈ snap.elements, (enrich_player snap p.id).isSome = true) :
    ∃ ps : List Player,
      top_value_picks snap limit min_mins = some (ps.map (valueEntryOfD snap)) ∧
      (∀ p ∈ ps, p ∈ snap.elements ∧ min_mins ≤ p.minutes ∧ 0 < p.now_cost) ∧
      ps.Pairwise (fun a b => ratioQ b ≤ ratioQ a) ∧
      ps.length = min limit
        (snap.elements.filter (fun p => decide (min_mins ≤ p.minutes))).length ∧
      (∀ p ∈ ps, (valueEntryOfD snap p).ppm =
        roundTo 2 ((p.total_points : ℚ) / (p.now_cost : ℚ))) := by
  obtain ⟨ps, heq, hmem, hpw, hlen⟩ := top_value_picks_some snap limit min_mins h1 h2
  refine ⟨ps, heq, hmem, hpw, hlen, ?_⟩
  intro p hp
  obtain ⟨d, hd⟩ := Option.isSome_iff_exists.mp (h2 p (hmem p hp).1)
  simp [valueEntryOf, valueEntryOfD, hd, ratioQ]

/-- C1 witness: the amended theorem applied to snapA with limit 10 and
minutes floor 0. -/
theorem c1_top_value_picks_witness :
    (∀ p ∈ snapA.elements, 0 ≤ p.minutes → p.now_cost ≠ 0) ∧
    (∀ p ∈ snapA.elements, (enrich_player snapA p.id).isSome = true) ∧
    (∃ ps : List Player,
      top_value_picks snapA 10 0 = some (ps.map (valueEntryOfD snapA)) ∧
      (∀ p ∈ ps, p ∈ snapA.elements ∧ 0 ≤ p.minutes ∧ 0 < p.now_cost) ∧
      ps.Pairwise (fun a b => ratioQ b ≤ ratioQ a) ∧
      ps.length = min 10
        (snapA.elements.filter (fun p => decide (0 ≤ p.minutes))).length ∧
      (∀ p ∈ ps, (valueEntryOfD snapA p).ppm =
        roundTo 2 ((p.total_points : ℚ) / (p.now_cost : ℚ)))) :=
  ⟨by decide, by decide, c1_top_value_picks snapA 10 0 (by decide) (by decide)⟩

/-- C10: squad members are mapped back to player ids by an exact full-name
lookup in playerMapInv (built from the bootstrap snapshot): a name carried
by no player is absent from the map (the lookup fails), such a failure in
the underperformer scan aborts suggest_transfers at that stage, a name
carried by at least one player resolves to the id of a single player with
that name (so two distinct players sharing a full name resolve to only one
of them), and on the success path suggest_transfers routes every squad
member through this scan. -/
theorem c10_name_lookup :
    (∀ (snap : Bootstrap) (nm : String),
      (∀ p ∈ snap.elements, fullName p ≠ nm) → playerMapInv snap nm = none) ∧
    (∀ (snap : Bootstrap) (nm : String),
      (∃ p ∈ snap.elements, fullName p = nm) →
      ∃ pid, playerMapInv snap nm = some pid ∧
        ∃ p ∈ snap.elements, p.id = pid ∧ fullName p = nm) ∧
    (∀ (snap : Bootstrap) (form : Nat → ℚ) (squad : List SquadEntry),
      (∃ e ∈ squad, playerMapInv snap e.name = none) →
      underperformers snap form squad = none) ∧
    (∀ (snap : Bootstrap) (form : Nat → ℚ) (raw : PicksRaw) (budget : ℚ)
        (hist : EntryHistoryRaw) (bankRaw : ℤ) (squad bad : List SquadEntry)
        (reps : List ValueEntry),
      raw.entry_history = some hist → hist.bank = some bankRaw →
      resolve_player_picks snap raw.picks = some squad →
      underperformers snap form squad = some bad →
      top_value_picks snap 30 900 = some reps →
      suggest_transfers snap form raw budget =
        some ((bad.filterMap
          (firstReplacement ((bankRaw : ℚ) / 10 + budget) reps)).take 3)) ∧
    (playerMapInv snapDup "John Doe" = some 2 ∧
      (⟨1, "John", "Doe", 1, 1, 50, 10, 0⟩ : Player) ∈ snapDup.elements ∧
      (⟨2, "John", "Doe", 1, 1, 60, 20, 0⟩ : Player) ∈ snapDup.elements) := by
  refine ⟨?_, ?_, ?_, ?_, by decide, by decide, by decide⟩
  · intro snap nm h
    unfold playerMapInv pyDictGet
    rw [List.find?_eq_none.mpr ?_]
    · rfl
    · intro kv hkv
      rw [List.mem_reverse] at hkv
      obtain ⟨p, hp, rfl⟩ := List.mem_map.mp hkv
      simp [h p hp]
  · intro snap nm h
    obtain ⟨p0, hp0, hname⟩ := h
    have hsome : ((snap.elements.map (fun p => (fullName p, p.id))).reverse.find?
        (fun kv => decide (kv.1 = nm))).isSome = true := by
      rw [List.find?_isSome]
      exact ⟨(fullName p0, p0.id),
        by rw [List.mem_reverse]; exact List.mem_map_of_mem _ hp0, by simp [hname]⟩
    obtain ⟨kv, hkv⟩ := Option.isSome_iff_exists.mp hsome
    have hmem := List.mem_of_find?_eq_some hkv
    rw [List.mem_reverse] at hmem
    obtain ⟨p, hp, hpe⟩ := List.mem_map.mp hmem
    have hkey := List.find?_some hkv
    refine ⟨kv.2, ?_, p, hp, ?_, ?_⟩
    · unfold playerMapInv pyDictGet
      rw [hkv]
      rfl
    · rw [← hpe]
    · rw [← hpe] at hkey
      simpa using hkey
  · intro snap form squad h
    obtain ⟨e, he, hnone⟩ := h
    unfold underperformers
    exact filterO_none_of_mem _ squad ⟨e, he, by rw [hnone]; rfl⟩
  · intro snap form raw budget hist bankRaw squad bad reps hh hb hr hu ht
    simp only [suggest_transfers, hh, hb, hr, hu, ht, Option.bind_eq_bind,
      Option.some_bind]
    rfl

/-- C10 witness: a name no player of snapA carries is absent from the map;
the shared name John Doe of snapDup resolves to a single id; a ghost squad
entry aborts the underperformer scan; and the success path on snapA with
the all-zero form oracle goes through. -/
theorem c10_name_lookup_witness :
    (∀ p ∈ snapA.elements, fullName p ≠ "Nobody Here") ∧
    playerMapInv snapA "Nobody Here" = none ∧
    (∃ p ∈ snapDup.elements, fullName p = "John Doe") ∧
    (∃ pid, playerMapInv snapDup "John Doe" = some pid ∧
      ∃ p ∈ snapDup.elements, p.id = pid ∧ fullName p = "John Doe") ∧
    (∃ e ∈ ghostSquad, playerMapInv snapA e.name = none) ∧
    underperformers snapA formZero ghostSquad = none ∧
    (∃ squad bad reps,
      resolve_player_picks snapA rawAlicePick.picks = some squad ∧
      underperformers snapA formZero squad = some bad ∧
      top_value_picks snapA 30 900 = some reps ∧
      suggest_transfers snapA formZero rawAlicePick 0 =
        some ((bad.filterMap
          (firstReplacement (((15 : ℤ) : ℚ) / 10 + 0) reps)).take 3)) := by
  refine ⟨by decide, c10_name_lookup.1 snapA "Nobody Here" (by decide),
    by decide, c10_name_lookup.2.1 snapDup "John Doe" (by decide),
    by decide, c10_name_lookup.2.2.1 snapA formZero ghostSquad (by decide), ?_⟩
  obtain ⟨ps, hreps, -, -, -⟩ := top_value_picks_some snapA 30 900
    (by decide) (by decide)
  refine ⟨(resolve_player_picks snapA rawAlicePick.picks).get (by decide),
    (underperformers snapA formZero
      ((resolve_player_picks snapA rawAlicePick.picks).get (by decide))).get (by decide),
    ps.map (valueEntryOfD snapA), (Option.some_get _).symm, (Option.some_get _).symm,
    hreps, ?_⟩
  exact c10_name_lookup.2.2.2.1 snapA formZero rawAlicePick 0 _ 15 _ _
    (ps.map (valueEntryOfD snapA)) rfl rfl (Option.some_get _).symm
    (Option.some_get _).symm hreps
